import Mathlib

/-
Verification of the vpn agent / central server code base.

The Python sources are shallowly embedded below.  Pure data manipulation
(config mutation, rate arithmetic, percentile selection, parsing of the
/proc text sources, task-queue transitions) is translated into executable
Lean definitions; external effects (subprocess exit codes, regex capture
results, database contents, file readability) appear as explicit
parameters of those definitions.
-/

namespace VpnVerify

/-! ## ConfigMutator: apply_tasks (src/vpn_server/vpn_agent.py, lines 186-222)

An xray config is modelled by its list of inbounds; each inbound carries
its protocol string and the clients list found at settings.clients
(a missing settings or clients object behaves as the empty list, which is
what the setdefault calls in the source produce).  A client dict is
modelled by its id, flow and email fields. -/

structure Client where
  id : Option String
  flow : Option String
  email : Option String
deriving DecidableEq, Repr

structure Inbound where
  protocol : Option String
  clients : List Client
deriving DecidableEq, Repr

/-- A task as normalised by apply_tasks: action and user id are the
stripped strings taken from the type and id fields of the task dict. -/
structure Task where
  type : String
  id : String
  email : Option String
deriving DecidableEq, Repr

/-- Python truthiness of the email field: present and non-empty. -/
def emailOk : Option String → Bool
  | none => false
  | some s => !(s == "")

/-- The client dict appended by the add_key branch. -/
def mkClient (t : Task) : Client :=
  { id := some t.id
    flow := some "xtls-rprx-vision"
    email := if emailOk t.email then t.email else none }

/-- any(c.get("id") == user_id for c in clients) -/
def hasId (k : String) (cs : List Client) : Bool :=
  cs.any (fun c => c.id == some k)

/-- One task applied to one inbound of the target protocol; the Bool is
whether this inbound's clients list changed. -/
def applyTaskToInbound (t : Task) (b : Inbound) : Inbound × Bool :=
  if t.type == "add_key" then
    if hasId t.id b.clients then (b, false)
    else ({ b with clients := b.clients ++ [mkClient t] }, true)
  else if t.type == "del_key" then
    if (b.clients.filter (fun c => !(c.id == some t.id))).length == b.clients.length
    then (b, false)
    else ({ b with clients := b.clients.filter (fun c => !(c.id == some t.id)) }, true)
  else (b, false)

/-- b.get("protocol") == "vless" -/
def isVless (b : Inbound) : Bool := b.protocol == some "vless"

/-- The per-inbound step of apply_tasks: only vless inbounds are touched. -/
def applyStep (t : Task) (b : Inbound) : Inbound × Bool :=
  if isVless b then applyTaskToInbound t b else (b, false)

/-- One task applied to the whole inbound list.  A task with an empty
user id is skipped (if not user_id: continue). -/
def applyTask (t : Task) (cfg : List Inbound) : List Inbound × Bool :=
  if t.id == "" then (cfg, false)
  else (cfg.map (fun b => (applyStep t b).1), cfg.any (fun b => (applyStep t b).2))

/-- The task loop of apply_tasks; the Bool is the changed flag that
gates the write plus reload. -/
def apply_tasks : List Task → List Inbound → List Inbound × Bool
  | [], cfg => (cfg, false)
  | t :: ts, cfg =>
    let r1 := applyTask t cfg
    let r2 := apply_tasks ts r1.1
    (r2.1, r1.2 || r2.2)

/-- Number of client entries with the given id on an inbound. -/
def countId (k : String) (b : Inbound) : Nat :=
  (b.clients.filter (fun c => c.id == some k)).length

def addTask (k : String) (e : Option String) : Task := ⟨"add_key", k, e⟩

def delTask (k : String) : Task := ⟨"del_key", k, none⟩

/-- External effects performed after the task loop: config write,
systemctl reload attempts, systemctl restart attempts. -/
structure Effects where
  wrote : Bool
  reloadAttempts : Nat
  restartAttempts : Nat
deriving DecidableEq, Repr

/-- Effects of the tail of apply_tasks: nothing happens unless the
changed flag is set; then the config is written (writeOk abstracts
whether write_json_atomic raises), reload is attempted once, and a
restart is attempted exactly when the reload exit code is nonzero. -/
def mutatorEffects (changed : Bool) (writeOk : Bool) (reloadRc : Int) : Effects :=
  if changed then
    if writeOk then
      { wrote := true
        reloadAttempts := 1
        restartAttempts := if reloadRc == 0 then 0 else 1 }
    else { wrote := false, reloadAttempts := 0, restartAttempts := 0 }
  else { wrote := false, reloadAttempts := 0, restartAttempts := 0 }

/-! ### Basic lemmas about the per-inbound step -/

theorem applyTaskToInbound_protocol (t : Task) (b : Inbound) :
    ((applyTaskToInbound t b).1).protocol = b.protocol := by
  unfold applyTaskToInbound
  split_ifs <;> rfl

theorem applyStep_protocol (t : Task) (b : Inbound) :
    ((applyStep t b).1).protocol = b.protocol := by
  unfold applyStep
  split_ifs
  · exact applyTaskToInbound_protocol t b
  · rfl

theorem applyTaskToInbound_false (t : Task) (b : Inbound)
    (h : (applyTaskToInbound t b).2 = false) : (applyTaskToInbound t b).1 = b := by
  unfold applyTaskToInbound at h ⊢
  split_ifs at h ⊢ <;> simp_all

theorem applyTaskToInbound_true (t : Task) (b : Inbound)
    (h : (applyTaskToInbound t b).2 = true) :
    ((applyTaskToInbound t b).1).clients.length ≠ b.clients.length := by
  unfold applyTaskToInbound at h ⊢
  split_ifs at h ⊢ with h1 h2 h3 h4 <;> simp_all

theorem applyStep_false (t : Task) (b : Inbound)
    (h : (applyStep t b).2 = false) : (applyStep t b).1 = b := by
  by_cases hv : isVless b = true
  · simp only [applyStep, hv, if_pos] at h ⊢
    exact applyTaskToInbound_false t b h
  · simp [applyStep, hv]

theorem applyStep_true (t : Task) (b : Inbound)
    (h : (applyStep t b).2 = true) : (applyStep t b).1 ≠ b := by
  by_cases hv : isVless b = true
  · simp only [applyStep, hv, if_pos] at h ⊢
    intro he
    exact applyTaskToInbound_true t b h (by rw [he])
  · simp [applyStep, hv] at h

/-! ### add_key / del_key behaviour on one inbound -/

theorem countId_zero_iff (K : String) (b : Inbound) :
    countId K b = 0 ↔ hasId K b.clients = false := by
  unfold countId hasId
  simp [List.length_eq_zero, List.filter_eq_nil_iff, List.any_eq_false]

theorem addStep_present (K : String) (e : Option String) (b : Inbound)
    (hv : isVless b = true) (h : hasId K b.clients = true) :
    applyStep (addTask K e) b = (b, false) := by
  simp [applyStep, hv, applyTaskToInbound, addTask, h]

theorem addStep_absent (K : String) (e : Option String) (b : Inbound)
    (hv : isVless b = true) (h : hasId K b.clients = false) :
    applyStep (addTask K e) b
      = ({ b with clients := b.clients ++ [mkClient (addTask K e)] }, true) := by
  simp [applyStep, hv, applyTaskToInbound, addTask, h]

theorem hasId_after_add (K : String) (e : Option String) (b : Inbound)
    (hv : isVless b = true) :
    hasId K ((applyStep (addTask K e) b).1).clients = true := by
  by_cases h : hasId K b.clients = true
  · rw [addStep_present K e b hv h]
    exact h
  · rw [addStep_absent K e b hv (by simpa using h)]
    simp [hasId, mkClient, addTask]

theorem addStep_idem (K : String) (e : Option String) (b : Inbound) :
    applyStep (addTask K e) ((applyStep (addTask K e) b).1)
      = ((applyStep (addTask K e) b).1, false) := by
  by_cases hv : isVless b = true
  · have hv2 : isVless ((applyStep (addTask K e) b).1) = true := by
      unfold isVless at hv ⊢
      rw [applyStep_protocol]
      exact hv
    exact addStep_present K e _ hv2 (hasId_after_add K e b hv)
  · have h1 : applyStep (addTask K e) b = (b, false) := by simp [applyStep, hv]
    rw [h1]
    exact h1

theorem countId_after_add (K : String) (e : Option String) (b : Inbound)
    (hv : isVless b = true) (hle : countId K b ≤ 1) :
    countId K ((applyStep (addTask K e) b).1) = 1 := by
  by_cases h : hasId K b.clients = true
  · rw [addStep_present K e b hv h]
    have h1 : 1 ≤ countId K b := by
      rcases List.any_eq_true.mp h with ⟨c, hc, hm⟩
      have hmem : c ∈ b.clients.filter (fun c => c.id == some K) :=
        List.mem_filter.mpr ⟨hc, hm⟩
      have := List.length_pos.mpr (List.ne_nil_of_mem hmem)
      unfold countId
      omega
    show countId K b = 1
    omega
  · rw [addStep_absent K e b hv (by simpa using h)]
    have h0 : b.clients.filter (fun c => c.id == some K) = [] := by
      have h1 := (countId_zero_iff K b).mpr (by simpa using h)
      unfold countId at h1
      exact List.length_eq_zero.mp h1
    unfold countId
    simp [List.filter_append, h0, mkClient, addTask]

theorem delStep_noop (K : String) (b : Inbound)
    (h : isVless b = true → countId K b = 0) :
    applyStep (delTask K) b = (b, false) := by
  by_cases hv : isVless b = true
  · have h0 : b.clients.filter (fun c => c.id == some K) = [] := by
      have h1 := h hv
      unfold countId at h1
      exact List.length_eq_zero.mp h1
    have hf : b.clients.filter (fun c => !(c.id == some K)) = b.clients := by
      apply List.filter_eq_self.mpr
      intro c hc
      by_contra hm
      have hx : (c.id == some K) = true := by simpa using hm
      have hcm : c ∈ b.clients.filter (fun c => c.id == some K) :=
        List.mem_filter.mpr ⟨hc, hx⟩
      rw [h0] at hcm
      simp at hcm
    simp [applyStep, hv, applyTaskToInbound, delTask, hf]
  · simp [applyStep, hv]

theorem countId_after_del (K : String) (b : Inbound) (hv : isVless b = true) :
    countId K ((applyStep (delTask K) b).1) = 0 := by
  by_cases h : (b.clients.filter (fun c => !(c.id == some K))).length = b.clients.length
  · -- the filter removed nothing, so no client with id K existed
    have hd : applyStep (delTask K) b = (b, false) := by
      simp [applyStep, hv, applyTaskToInbound, delTask, h]
    rw [hd]
    have hsub := List.filter_sublist (p := fun c => !(c.id == some K)) b.clients
    have heq := hsub.eq_of_length h
    show countId K b = 0
    unfold countId
    simp only [List.length_eq_zero, List.filter_eq_nil_iff]
    intro c hc
    have := List.filter_eq_self.mp heq c hc
    simpa using this
  · have hd : applyStep (delTask K) b
        = ({ b with clients := b.clients.filter (fun c => !(c.id == some K)) }, true) := by
      simp [applyStep, hv, applyTaskToInbound, delTask, h]
    rw [hd]
    unfold countId
    simp [List.filter_filter]

/-! ### Lemmas about applyTask and apply_tasks on the whole config -/

theorem map_self_mem {α : Type} (f : α → α) (l : List α) (h : l.map f = l) :
    ∀ a ∈ l, f a = a := by
  induction l with
  | nil => intro a ha; simp at ha
  | cons x xs ih =>
    simp only [List.map_cons, List.cons.injEq] at h
    intro a ha
    rcases List.mem_cons.mp ha with h1 | h2
    · rw [h1]; exact h.1
    · exact ih h.2 a h2

theorem applyTask_expand (t : Task) (cfg : List Inbound) (h : ¬t.id = "") :
    applyTask t cfg
      = (cfg.map (fun b => (applyStep t b).1), cfg.any (fun b => (applyStep t b).2)) := by
  simp [applyTask, h]

theorem applyTask_false (t : Task) (cfg : List Inbound)
    (h : (applyTask t cfg).2 = false) : (applyTask t cfg).1 = cfg := by
  by_cases hid : t.id = ""
  · simp [applyTask, hid]
  · rw [applyTask_expand t cfg hid] at h ⊢
    have hall : ∀ b ∈ cfg, (applyStep t b).1 = b := by
      intro b hb
      apply applyStep_false
      have := List.any_eq_false.mp h b hb
      simpa using this
    calc cfg.map (fun b => (applyStep t b).1)
        = cfg.map id := List.map_congr_left hall
      _ = cfg := List.map_id cfg

theorem applyTask_true (t : Task) (cfg : List Inbound)
    (h : (applyTask t cfg).2 = true) : (applyTask t cfg).1 ≠ cfg := by
  by_cases hid : t.id = ""
  · simp [applyTask, hid] at h
  · rw [applyTask_expand t cfg hid] at h ⊢
    rcases List.any_eq_true.mp h with ⟨b, hb, hflag⟩
    intro he
    have hpt : (applyStep t b).1 = b :=
      map_self_mem (fun b => (applyStep t b).1) cfg he b hb
    exact applyStep_true t b hflag hpt

theorem apply_tasks_false (ts : List Task) (cfg : List Inbound)
    (h : (apply_tasks ts cfg).2 = false) : (apply_tasks ts cfg).1 = cfg := by
  induction ts generalizing cfg with
  | nil => rfl
  | cons t ts ih =>
    simp only [apply_tasks, Bool.or_eq_false_iff] at h
    have e1 : (applyTask t cfg).1 = cfg := applyTask_false t cfg h.1
    simp only [apply_tasks]
    rw [e1] at h ⊢
    exact ih cfg h.2

theorem apply_tasks_true (ts : List Task) (cfg : List Inbound)
    (h : (apply_tasks ts cfg).2 = true) :
    ∃ pre t post, ts = pre ++ t :: post ∧
      (applyTask t ((apply_tasks pre cfg).1)).1 ≠ (apply_tasks pre cfg).1 := by
  induction ts generalizing cfg with
  | nil => simp [apply_tasks] at h
  | cons t ts ih =>
    simp only [apply_tasks, Bool.or_eq_true] at h
    by_cases h1 : (applyTask t cfg).2 = true
    · exact ⟨[], t, ts, rfl, applyTask_true t cfg h1⟩
    · have h1f : (applyTask t cfg).2 = false := by simpa using h1
      have e1 : (applyTask t cfg).1 = cfg := applyTask_false t cfg h1f
      have h2 : (apply_tasks ts cfg).2 = true := by
        rcases h with hl | hr
        · exact absurd hl h1
        · rw [e1] at hr; exact hr
      rcases ih cfg h2 with ⟨pre, t2, post, hsplit, hne⟩
      refine ⟨t :: pre, t2, post, by rw [hsplit]; simp, ?_⟩
      have hpre : (apply_tasks (t :: pre) cfg).1 = (apply_tasks pre cfg).1 := by
        simp only [apply_tasks]
        rw [e1]
      rw [hpre]
      exact hne

theorem apply_tasks_of_noop (ts : List Task) (cfg : List Inbound)
    (H : ∀ pre t post, ts = pre ++ t :: post →
        (applyTask t ((apply_tasks pre cfg).1)).1 = (apply_tasks pre cfg).1) :
    (apply_tasks ts cfg).2 = false ∧ (apply_tasks ts cfg).1 = cfg := by
  induction ts with
  | nil => exact ⟨rfl, rfl⟩
  | cons t ts ih =>
    have e1 : (applyTask t cfg).1 = cfg := H [] t ts rfl
    have h1 : (applyTask t cfg).2 = false := by
      by_contra hc
      exact applyTask_true t cfg (by simpa using hc) e1
    have H2 : ∀ pre t2 post, ts = pre ++ t2 :: post →
        (applyTask t2 ((apply_tasks pre cfg).1)).1 = (apply_tasks pre cfg).1 := by
      intro pre t2 post hs
      have hx := H (t :: pre) t2 post (by rw [hs]; simp)
      have hpre : (apply_tasks (t :: pre) cfg).1 = (apply_tasks pre cfg).1 := by
        simp only [apply_tasks]
        rw [e1]
      rw [hpre] at hx
      exact hx
    rcases ih H2 with ⟨hf, he⟩
    constructor
    · simp only [apply_tasks]
      rw [e1]
      simp [h1, hf]
    · simp only [apply_tasks]
      rw [e1]
      exact he

/-! ### Claim C1 -/

/-- Claim C1: ConfigMutator task application is idempotent.  Applying
add_key(K) twice gives the same end state as applying once (and the
second application reports no change); on a config whose vless listeners
each hold at most one entry per key, it leaves exactly one entry with
id K on each vless listener; del_key(K) when no vless listener holds an
entry with id K changes nothing and reports no change; add_key(K)
followed by del_key(K) leaves zero entries with id K on each vless
listener. -/
theorem C1_apply_tasks_idempotent (K : String) (e : Option String) (hK : ¬K = "") :
    (∀ cfg : List Inbound,
       applyTask (addTask K e) ((applyTask (addTask K e) cfg).1)
         = ((applyTask (addTask K e) cfg).1, false)) ∧
    (∀ cfg : List Inbound, (∀ b ∈ cfg, isVless b = true → countId K b ≤ 1) →
       ∀ b ∈ (applyTask (addTask K e) ((applyTask (addTask K e) cfg).1)).1,
         isVless b = true → countId K b = 1) ∧
    (∀ cfg : List Inbound, (∀ b ∈ cfg, isVless b = true → countId K b = 0) →
       applyTask (delTask K) cfg = (cfg, false)) ∧
    (∀ cfg : List Inbound,
       ∀ b ∈ (applyTask (delTask K) ((applyTask (addTask K e) cfg).1)).1,
         isVless b = true → countId K b = 0) := by
  have hKa : ¬(addTask K e).id = "" := hK
  have hKd : ¬(delTask K).id = "" := hK
  have hone : ∀ cfg : List Inbound,
      applyTask (addTask K e) ((applyTask (addTask K e) cfg).1)
        = ((applyTask (addTask K e) cfg).1, false) := by
    intro cfg
    rw [applyTask_expand _ _ hKa, applyTask_expand _ _ hKa]
    dsimp only
    simp only [Prod.mk.injEq]
    constructor
    · rw [List.map_map]
      apply List.map_congr_left
      intro a _
      show (applyStep (addTask K e) ((applyStep (addTask K e) a).1)).1
        = (applyStep (addTask K e) a).1
      rw [addStep_idem]
    · rw [List.any_map]
      apply List.any_eq_false.mpr
      intro a _
      show ¬(applyStep (addTask K e) ((applyStep (addTask K e) a).1)).2 = true
      rw [addStep_idem]
      simp
  refine ⟨hone, ?_, ?_, ?_⟩
  · intro cfg hcnt b hb hv
    rw [congrArg Prod.fst (hone cfg)] at hb
    rw [applyTask_expand _ _ hKa] at hb
    rcases List.mem_map.mp hb with ⟨a, ha, hab⟩
    have hva : isVless a = true := by
      unfold isVless at hv ⊢
      rw [← hab] at hv
      rw [applyStep_protocol] at hv
      exact hv
    rw [← hab]
    exact countId_after_add K e a hva (hcnt a ha hva)
  · intro cfg h0
    rw [applyTask_expand _ _ hKd]
    simp only [Prod.mk.injEq]
    constructor
    · calc cfg.map (fun b => (applyStep (delTask K) b).1)
          = cfg.map id := by
            apply List.map_congr_left
            intro a ha
            show (applyStep (delTask K) a).1 = a
            rw [delStep_noop K a (fun hv => h0 a ha hv)]
        _ = cfg := List.map_id cfg
    · apply List.any_eq_false.mpr
      intro a ha
      show ¬(applyStep (delTask K) a).2 = true
      rw [delStep_noop K a (fun hv => h0 a ha hv)]
      simp
  · intro cfg b hb hv
    rw [applyTask_expand _ _ hKd] at hb
    rcases List.mem_map.mp hb with ⟨a, _, hab⟩
    have hva : isVless a = true := by
      unfold isVless at hv ⊢
      rw [← hab] at hv
      rw [applyStep_protocol] at hv
      exact hv
    rw [← hab]
    exact countId_after_del K a hva

/-- A small concrete config: one vless listener holding key A, and one
non-vless listener holding key B. -/
def cfgEx : List Inbound :=
  [⟨some "vless", [⟨some "A", none, none⟩]⟩,
   ⟨some "http", [⟨some "B", none, none⟩]⟩]

theorem C1_apply_tasks_idempotent_witness :
    applyTask (delTask "B") cfgEx = (cfgEx, false) ∧
    (∀ b ∈ (applyTask (delTask "B") ((applyTask (addTask "B" none) cfgEx).1)).1,
       isVless b = true → countId "B" b = 0) := by
  have h := C1_apply_tasks_idempotent "B" none (by decide)
  exact ⟨h.2.2.1 cfgEx (by decide), h.2.2.2 cfgEx⟩

/-! ### Claim C3 -/

/-- Claim C3: a task batch whose application changes no listener's
client set leaves the config unchanged and performs no write, no reload
and no restart; conversely a config write (with exactly one reload
attempt) happens only when some step of the batch changed some
listener's client set. -/
theorem C3_noop_batch_no_effects (ts : List Task) (cfg : List Inbound)
    (writeOk : Bool) (reloadRc : Int)
    (hnoop : ∀ pre t post, ts = pre ++ t :: post →
        (applyTask t ((apply_tasks pre cfg).1)).1 = (apply_tasks pre cfg).1) :
    ((apply_tasks ts cfg).1 = cfg ∧
      mutatorEffects (apply_tasks ts cfg).2 writeOk reloadRc
        = { wrote := false, reloadAttempts := 0, restartAttempts := 0 }) ∧
    (∀ ts2 : List Task, ∀ cfg2 : List Inbound,
       (mutatorEffects (apply_tasks ts2 cfg2).2 writeOk reloadRc).wrote = true →
       (mutatorEffects (apply_tasks ts2 cfg2).2 writeOk reloadRc).reloadAttempts = 1 ∧
       ∃ pre t post, ts2 = pre ++ t :: post ∧
         (applyTask t ((apply_tasks pre cfg2).1)).1 ≠ (apply_tasks pre cfg2).1) := by
  constructor
  · rcases apply_tasks_of_noop ts cfg hnoop with ⟨hf, he⟩
    exact ⟨he, by simp [mutatorEffects, hf]⟩
  · intro ts2 cfg2 hw
    have hc : (apply_tasks ts2 cfg2).2 = true := by
      by_contra hcn
      have hf2 : (apply_tasks ts2 cfg2).2 = false := by simpa using hcn
      simp [mutatorEffects, hf2] at hw
    refine ⟨?_, apply_tasks_true ts2 cfg2 hc⟩
    by_cases hwk : writeOk = true
    · simp [mutatorEffects, hc, hwk]
    · simp [mutatorEffects, hc, hwk] at hw

theorem C3_noop_batch_no_effects_witness :
    (apply_tasks [] cfgEx).1 = cfgEx ∧
    mutatorEffects (apply_tasks [] cfgEx).2 true 0
      = { wrote := false, reloadAttempts := 0, restartAttempts := 0 } :=
  (C3_noop_batch_no_effects [] cfgEx true 0
    (by intro pre t post hs; simp at hs)).1

/-! ## RateEstimator (src/vpn_server/vpn_agent.py, run_loop lines 303-320)

Counter values are exact integers; the float arithmetic of the source is
modelled over the rationals.  Python int() truncates toward zero and
Python round() rounds to nearest with ties to even. -/

/-- Python int() applied to a (float) quotient: truncation toward zero. -/
def pyTrunc (q : ℚ) : ℤ := if 0 ≤ q then ⌊q⌋ else ⌈q⌉

/-- Python round() to an integer: nearest, ties to the even neighbour. -/
def pyRound (q : ℚ) : ℤ :=
  if q - ⌊q⌋ < 1/2 then ⌊q⌋
  else if 1/2 < q - ⌊q⌋ then ⌊q⌋ + 1
  else if ⌊q⌋ % 2 = 0 then ⌊q⌋ else ⌊q⌋ + 1

/-- Python round(x, 2). -/
def round2 (q : ℚ) : ℚ := (pyRound (q * 100) : ℚ) / 100

/-- dt = max(1, now - last_ts), evaluated under the guard now > last_ts. -/
def elapsed (now last : ℤ) : ℤ := max 1 (now - last)

/-- bw_rx_mbps = round(((rx_bytes - last_rx_bytes) * 8.0) / (dt * 1_000_000), 2);
identical formula for tx. -/
def bw_mbps (cur prev dt : ℤ) : ℚ :=
  round2 (((cur : ℚ) - (prev : ℚ)) * 8 / ((dt : ℚ) * 1000000))

/-- pps_rx = max(0, int((rx_pkts - last_rx_pkts) / dt)); identical for tx. -/
def pps (cur prev dt : ℤ) : ℤ :=
  max 0 (pyTrunc (((cur : ℚ) - (prev : ℚ)) / (dt : ℚ)))

/-- conn_est_rate = max(0, int(delta / dt2)) with
delta = (active_opens - last_active_opens) + (passive_opens - last_passive_opens). -/
def conn_est_rate (ao lao po lpo dt : ℤ) : ℤ :=
  max 0 (pyTrunc ((((ao : ℚ) - (lao : ℚ)) + ((po : ℚ) - (lpo : ℚ))) / (dt : ℚ)))

theorem pyTrunc_nonneg {q : ℚ} (h : 0 ≤ q) : 0 ≤ pyTrunc q := by
  unfold pyTrunc
  rw [if_pos h]
  exact Int.floor_nonneg.mpr h

theorem pyTrunc_nonpos {q : ℚ} (h : q ≤ 0) : pyTrunc q ≤ 0 := by
  unfold pyTrunc
  split_ifs with h1
  · have hq : q = 0 := le_antisymm h h1
    simp [hq]
  · exact Int.ceil_le.mpr (by push_cast; exact h)

theorem pyRound_nonneg {q : ℚ} (h : 0 ≤ q) : 0 ≤ pyRound q := by
  unfold pyRound
  have hf : (0:ℤ) ≤ ⌊q⌋ := Int.floor_nonneg.mpr h
  split_ifs <;> omega

theorem round2_nonneg {q : ℚ} (h : 0 ≤ q) : 0 ≤ round2 q := by
  unfold round2
  have h1 : (0:ℤ) ≤ pyRound (q * 100) := pyRound_nonneg (by positivity)
  have h2 : (0:ℚ) ≤ (pyRound (q * 100) : ℚ) := by exact_mod_cast h1
  positivity

/-! ### Claim C2 -/

/-- Claim C2 counterexample: on a counter reset (current 0 after
previous 1000000, one second elapsed) the bandwidth rate computed by the
loop is -8 Mbit/s — negative, not clamped to 0 as the claim states. -/
theorem C2_counterexample :
    bw_mbps 0 1000000 (elapsed 1 0) = -8 ∧ bw_mbps 0 1000000 (elapsed 1 0) < 0 := by
  have he : elapsed 1 0 = 1 := by simp [elapsed]
  rw [he]
  have hq : ((0 : ℚ) - (1000000 : ℚ)) * 8 / ((1 : ℚ) * 1000000) = -8 := by norm_num
  have hr : bw_mbps 0 1000000 1 = -8 := by
    unfold bw_mbps
    push_cast
    rw [hq]
    unfold round2 pyRound
    norm_num
  exact ⟨hr, by rw [hr]; norm_num⟩

/-- Claim C2 amended: the packet rates and the connection-establishment
rate equal the truncated quotient (current - previous) / dt and are
clamped to 0 from below (a reset yields 0); the bandwidth rates equal
round((current - previous) * 8 / (dt * 10^6), 2) without any clamping:
they are nonnegative when the counter did not reset, but a reset can
make them negative (theorem C2_counterexample). -/
theorem C2_rates_amended (cur prev ao lao po lpo dt : ℤ) (hdt : 1 ≤ dt) :
    (0 ≤ pps cur prev dt) ∧
    (cur < prev → pps cur prev dt = 0) ∧
    (prev ≤ cur → pps cur prev dt = pyTrunc (((cur : ℚ) - (prev : ℚ)) / (dt : ℚ))) ∧
    (0 ≤ conn_est_rate ao lao po lpo dt) ∧
    ((ao - lao) + (po - lpo) < 0 → conn_est_rate ao lao po lpo dt = 0) ∧
    (prev ≤ cur → 0 ≤ bw_mbps cur prev dt) ∧
    (bw_mbps cur prev dt
      = round2 (((cur : ℚ) - (prev : ℚ)) * 8 / ((dt : ℚ) * 1000000))) := by
  have hdtq : (0 : ℚ) < (dt : ℚ) := by exact_mod_cast lt_of_lt_of_le one_pos hdt
  refine ⟨le_max_left 0 _, ?_, ?_, le_max_left 0 _, ?_, ?_, rfl⟩
  · intro hlt
    have hq : ((cur : ℚ) - (prev : ℚ)) / (dt : ℚ) ≤ 0 := by
      apply div_nonpos_of_nonpos_of_nonneg
      · have : (cur : ℚ) < (prev : ℚ) := by exact_mod_cast hlt
        linarith
      · exact le_of_lt hdtq
    have := pyTrunc_nonpos hq
    unfold pps
    omega
  · intro hge
    have hq : 0 ≤ ((cur : ℚ) - (prev : ℚ)) / (dt : ℚ) := by
      apply div_nonneg
      · have : (prev : ℚ) ≤ (cur : ℚ) := by exact_mod_cast hge
        linarith
      · exact le_of_lt hdtq
    have := pyTrunc_nonneg hq
    unfold pps
    omega
  · intro hlt
    have hs : ((ao : ℚ) - (lao : ℚ)) + ((po : ℚ) - (lpo : ℚ)) ≤ 0 := by
      have : ((ao - lao) + (po - lpo) : ℤ) < 0 := hlt
      have h2 : (((ao - lao) + (po - lpo) : ℤ) : ℚ) < 0 := by exact_mod_cast this
      push_cast at h2
      linarith
    have hq : (((ao : ℚ) - (lao : ℚ)) + ((po : ℚ) - (lpo : ℚ))) / (dt : ℚ) ≤ 0 :=
      div_nonpos_of_nonpos_of_nonneg hs (le_of_lt hdtq)
    have := pyTrunc_nonpos hq
    unfold conn_est_rate
    omega
  · intro hge
    apply round2_nonneg
    apply div_nonneg
    · have : (prev : ℚ) ≤ (cur : ℚ) := by exact_mod_cast hge
      linarith
    · positivity

theorem C2_rates_amended_witness :
    0 ≤ pps 7 2 1 ∧ pps 3 9 1 = 0 := by
  refine ⟨(C2_rates_amended 7 2 0 0 0 0 1 (by norm_num)).1, ?_⟩
  exact (C2_rates_amended 3 9 0 0 0 0 1 (by norm_num)).2.1 (by norm_num)

/-! ## TaskQueue state machine
(src/central_server/web/handlers/api.py, get_tasks lines 200-227 and
ack_task lines 230-247) -/

/-- str.lower() as applied to the requested ack status. -/
def pyLower (s : String) : String := ⟨s.data.map Char.toLower⟩

/-- get_tasks selects exactly the tasks of the requesting server in
status pending and sets their status to delivered; any other status is
left untouched by a pull. -/
def pullTransition (st : String) : String :=
  if st == "pending" then "delivered" else st

/-- ack_task: the requested status is lowercased and must be done or
failed (otherwise HTTP 400, no change — modelled as none); the found
task's status is then overwritten unconditionally, without inspecting
its current status st. -/
def ackTransition (st : String) (req : String) : Option String :=
  if pyLower req == "done" || pyLower req == "failed" then some (pyLower req)
  else none

/-- Claim C4 counterexample: ack_task never checks that the task is in
the delivered state — a task still pending is acknowledged straight to
done, reaching a terminal state without passing through delivered. -/
theorem C4_counterexample :
    ackTransition "pending" "done" = some "done" ∧
    pullTransition "pending" = "delivered" ∧ ¬("pending" : String) = "delivered" := by
  refine ⟨by decide, by decide, by decide⟩

/-- Claim C4 amended: pull transitions pending to delivered and leaves
every other status unchanged; done/failed are produced only by an
explicit acknowledgment and an ack can never set status delivered; but
an acknowledgment applies to a task in any current status, so a task
can move from pending directly to done or failed without ever being
delivered. -/
theorem C4_transitions_amended (st req : String) :
    (pullTransition "pending" = "delivered") ∧
    (¬st = "pending" → pullTransition st = st) ∧
    (∀ s, ackTransition st req = some s →
       (s = "done" ∨ s = "failed") ∧ s = pyLower req) ∧
    (ackTransition st "delivered" = none) ∧
    (ackTransition "pending" "done" = some "done") := by
  refine ⟨by decide, ?_, ?_, ?_, by decide⟩
  · intro h
    unfold pullTransition
    rw [if_neg (by simpa using h)]
  · intro s hs
    unfold ackTransition at hs
    split_ifs at hs with h
    · have hse : pyLower req = s := Option.some.inj hs
      have hd : pyLower req = "done" ∨ pyLower req = "failed" := by simpa using h
      rcases hd with h1 | h1
      · exact ⟨Or.inl (by rw [← hse]; exact h1), hse.symm⟩
      · exact ⟨Or.inr (by rw [← hse]; exact h1), hse.symm⟩
  · unfold ackTransition
    decide

theorem C4_transitions_amended_witness :
    pullTransition "delivered" = "delivered" :=
  (C4_transitions_amended "delivered" "done").2.1 (by decide)

/-! ## Heartbeat ingestion
(src/central_server/web/handlers/api.py, receive_heartbeat lines 32-93;
parse_timestamp from web/utils/datetime_utils.py) -/

inductive PyExc where
  | httpExc (code : Nat)
  | dbError
deriving DecidableEq, Repr

/-- The body of receive_heartbeat inside the outer try block.
genOk/readyOk abstract whether datetime.fromisoformat (library code
called by parse_timestamp) accepts generated_at/ready_at; a ValueError
is converted to HTTPException(400); persistOk abstracts whether the
database commit succeeds, a failure raising a database exception;
success returns the id of the new heartbeat row. -/
def receive_heartbeat_body (genOk readyOk persistOk : Bool) (newId : Nat) :
    Except PyExc Nat :=
  if genOk && readyOk then
    if persistOk then Except.ok newId
    else Except.error PyExc.dbError
  else Except.error (PyExc.httpExc 400)

/-- The whole handler: the trailing `except Exception` catches every
exception raised in the body — including the HTTPException(400) raised
for an unparsable timestamp, because fastapi's HTTPException subclasses
Exception and, unlike the handlers in keys.py, receive_heartbeat has no
`except HTTPException: raise` clause — and re-raises HTTPException(500). -/
def receive_heartbeat (genOk readyOk persistOk : Bool) (newId : Nat) :
    Except PyExc Nat :=
  match receive_heartbeat_body genOk readyOk persistOk newId with
  | Except.ok v => Except.ok v
  | Except.error _ => Except.error (PyExc.httpExc 500)

/-- Claim C5, evaluated on the code: an unparsable generated_at or
ready_at makes the endpoint reply HTTP 500 — not the claimed 400 — even
though the body did raise HTTPException(400); persistence failure gives
500 as claimed; success gives acceptance with the new record id. -/
theorem C5_unparsable_timestamp_gives_500 :
    (∀ newId, receive_heartbeat false true true newId
        = Except.error (PyExc.httpExc 500)) ∧
    (∀ newId, receive_heartbeat true false true newId
        = Except.error (PyExc.httpExc 500)) ∧
    (∀ newId, receive_heartbeat_body false true true newId
        = Except.error (PyExc.httpExc 400)) ∧
    (∀ newId, receive_heartbeat true true false newId
        = Except.error (PyExc.httpExc 500)) ∧
    (∀ newId, receive_heartbeat true true true newId = Except.ok newId) :=
  ⟨fun _ => rfl, fun _ => rfl, fun _ => rfl, fun _ => rfl, fun _ => rfl⟩

/-! ## LatencyProbe (src/vpn_server/vpn_agent.py, measure_ping lines 122-145)

rc is the exit code of the ping subprocess; lossParsed is the captured
loss percentage when the packet-loss regex matched; times is the list of
round-trip samples captured by the time= regex, in output order. -/

/-- The inner pct helper: nearest-rank selection with the index
int(round((len(times) - 1) * p)) clamped into [0, len(times) - 1]. -/
def pct (times : List ℚ) (p : ℚ) : ℚ :=
  if times.length = 0 then 0
  else
    times.getD
      (min (max (pyRound (p * ((times.length : ℚ) - 1))) 0)
        ((times.length : ℤ) - 1)).toNat 0

/-- measure_ping returns (p50_ms, p95_ms, loss_pct).  A nonzero exit
code yields (0, 0, 100); loss_pct starts at 100.0 and is replaced by the
parsed value when the regex matched; with no parsed samples the
latencies are 0 and the loss stands; otherwise the sorted samples are
consulted at p = 0.5 and p = 0.95. -/
def measure_ping (rc : Int) (lossParsed : Option ℚ) (times : List ℚ) :
    ℚ × ℚ × ℚ :=
  if !(rc == 0) then (0, 0, 100)
  else if times.length = 0 then (0, 0, lossParsed.getD 100)
  else
    (pct (times.mergeSort (fun a b => decide (a ≤ b))) (1/2),
     pct (times.mergeSort (fun a b => decide (a ≤ b))) (19/20),
     lossParsed.getD 100)

theorem pct_get (times : List ℚ) (p : ℚ) (h : ¬times = []) :
    ∃ hlt : (min (max (pyRound (p * ((times.length : ℚ) - 1))) 0)
        ((times.length : ℤ) - 1)).toNat < times.length,
      pct times p
        = times.get ⟨(min (max (pyRound (p * ((times.length : ℚ) - 1))) 0)
            ((times.length : ℤ) - 1)).toNat, hlt⟩ := by
  have hn : 0 < times.length := List.length_pos.mpr h
  have hni : (1:ℤ) ≤ (times.length : ℤ) := by exact_mod_cast hn
  have h1 : (0:ℤ) ≤ min (max (pyRound (p * ((times.length : ℚ) - 1))) 0)
      ((times.length : ℤ) - 1) :=
    le_min (le_max_right _ 0) (by omega)
  have h2 : min (max (pyRound (p * ((times.length : ℚ) - 1))) 0)
      ((times.length : ℤ) - 1) ≤ (times.length : ℤ) - 1 := min_le_right _ _
  have hlt : (min (max (pyRound (p * ((times.length : ℚ) - 1))) 0)
      ((times.length : ℤ) - 1)).toNat < times.length := by omega
  refine ⟨hlt, ?_⟩
  unfold pct
  rw [if_neg (by omega)]
  exact List.getD_eq_get times 0 hlt

/-! ### Claims C6 and C7 -/

/-- Claim C6: for a successful probe with a non-empty sample list, each
returned percentile is the element of the sorted sample list at index
round(p * (n - 1)) clamped to [0, n - 1] (the sorted list being a
sorted permutation of the samples, of the same length n); in particular
samples [10, 20, 30, 40] give p50 = 30 and p95 = 40. -/
theorem C6_percentile_nearest_rank (times : List ℚ) (lossParsed : Option ℚ)
    (h : ¬times = []) :
    ((times.mergeSort (fun a b => decide (a ≤ b))).Perm times ∧
      List.Sorted (· ≤ ·) (times.mergeSort (fun a b => decide (a ≤ b))) ∧
      (times.mergeSort (fun a b => decide (a ≤ b))).length = times.length) ∧
    (∀ p : ℚ,
      ∃ hlt : (min (max (pyRound (p *
            (((times.mergeSort (fun a b => decide (a ≤ b))).length : ℚ) - 1))) 0)
          (((times.mergeSort (fun a b => decide (a ≤ b))).length : ℤ) - 1)).toNat
            < (times.mergeSort (fun a b => decide (a ≤ b))).length,
        pct (times.mergeSort (fun a b => decide (a ≤ b))) p
          = (times.mergeSort (fun a b => decide (a ≤ b))).get
            ⟨(min (max (pyRound (p *
                (((times.mergeSort (fun a b => decide (a ≤ b))).length : ℚ) - 1))) 0)
              (((times.mergeSort (fun a b => decide (a ≤ b))).length : ℤ) - 1)).toNat,
              hlt⟩) ∧
    measure_ping 0 lossParsed times
      = (pct (times.mergeSort (fun a b => decide (a ≤ b))) (1/2),
         pct (times.mergeSort (fun a b => decide (a ≤ b))) (19/20),
         lossParsed.getD 100) ∧
    measure_ping 0 lossParsed [10, 20, 30, 40] = (30, 40, lossParsed.getD 100) := by
  have hperm : (times.mergeSort (fun a b => decide (a ≤ b))).Perm times :=
    List.mergeSort_perm times _
  have hlen : (times.mergeSort (fun a b => decide (a ≤ b))).length = times.length :=
    hperm.length_eq
  have hLne : ¬times.mergeSort (fun a b => decide (a ≤ b)) = [] := by
    intro hx
    apply h
    rw [hx] at hlen
    exact (List.length_eq_zero.mp hlen.symm)
  refine ⟨⟨hperm, List.sorted_mergeSort' times, hlen⟩, ?_, ?_, ?_⟩
  · intro p
    exact pct_get (times.mergeSort (fun a b => decide (a ≤ b))) p hLne
  · unfold measure_ping
    rw [if_neg (by decide), if_neg (by simpa [List.length_eq_zero] using h)]
  · have hs : ([10, 20, 30, 40] : List ℚ).mergeSort (fun a b => decide (a ≤ b))
        = [10, 20, 30, 40] :=
      List.mergeSort_eq_self (by norm_num [List.sorted_cons])
    unfold measure_ping
    rw [if_neg (by decide), if_neg (by decide), hs]
    have p50 : pct [10, 20, 30, 40] (1/2) = 30 := by
      unfold pct
      rw [if_neg (by decide)]
      norm_num [pyRound]
      rfl
    have p95 : pct [10, 20, 30, 40] (19/20) = 40 := by
      unfold pct
      rw [if_neg (by decide)]
      norm_num [pyRound]
      rfl
    rw [p50, p95]

theorem C6_percentile_nearest_rank_witness :
    measure_ping 0 (some 1) [10, 20, 30, 40] = (30, 40, 1) := by
  have h := C6_percentile_nearest_rank [10, 20, 30, 40] (some 1) (by decide)
  exact h.2.2.2

/-- Claim C7: a failed or timed-out ping subprocess (nonzero exit code)
yields loss 100 and zero latencies; a successful run with zero parsed
round-trip samples yields zero latencies while the parsed loss
percentage stands. -/
theorem C7_probe_failure_defaults (rc : Int) (hrc : ¬rc = 0)
    (lossParsed : Option ℚ) (times : List ℚ) (l : ℚ) :
    measure_ping rc lossParsed times = (0, 0, 100) ∧
    measure_ping 0 (some l) [] = (0, 0, l) := by
  constructor
  · unfold measure_ping
    rw [if_pos (by simpa using hrc)]
  · rfl

theorem C7_probe_failure_defaults_witness :
    measure_ping 1 (some 5) [3, 4] = (0, 0, 100) ∧
    measure_ping 0 (some 5) [] = (0, 0, 5) :=
  ⟨(C7_probe_failure_defaults 1 (by decide) (some 5) [3, 4] 5).1,
   (C7_probe_failure_defaults 1 (by decide) (some 5) [3, 4] 5).2⟩

/-! ## CounterSampler text parsing
(src/vpn_server/vpn_agent.py: read_proc lines 60-65, cpu_sample lines
83-103, read_dev_counters lines 68-80)

read_proc returns the file's content, or "" when the file is missing
(FileNotFoundError).  The String arguments below are read_proc results. -/

/-- Splitting a character list at every character satisfying p; like
Python re-splitting, the empty input gives one empty piece. -/
def splitPred (p : Char → Bool) : List Char → List (List Char)
  | [] => [[]]
  | c :: cs =>
    match splitPred p cs, p c with
    | r, true => [] :: r
    | [], false => [[c]]
    | w :: ws, false => (c :: w) :: ws

/-- Python str.strip(). -/
def pyStrip (s : String) : String :=
  String.mk (((s.data.dropWhile Char.isWhitespace).reverse.dropWhile
    Char.isWhitespace).reverse)

/-- Python str.splitlines() on newline-separated text: the empty string
gives [] and a trailing newline contributes no empty line. -/
def pySplitlines (s : String) : List String :=
  match (splitPred (fun c => c == '\n') s.data).map String.mk with
  | [""] => []
  | parts => if parts.getLast? == some "" then parts.dropLast else parts

/-- Python str.split() with no argument: split on whitespace runs. -/
def pyWords (s : String) : List String :=
  ((splitPred Char.isWhitespace s.data).map String.mk).filter (fun w => !(w == ""))

/-- Digit-string value for pyInt. -/
def digitsVal (cs : List Char) : Option Nat :=
  if cs = [] then none
  else cs.foldl (fun acc c =>
    match acc with
    | none => none
    | some n => if c.isDigit then some (n * 10 + (c.toNat - 48)) else none)
    (some 0)

/-- Python int(s): the stripped string must be an optionally signed
digit run, else ValueError. -/
def pyInt (s : String) : Except String Int :=
  match (pyStrip s).data with
  | '-' :: rest =>
    match digitsVal rest with
    | some n => Except.ok (-(n : Int))
    | none => Except.error "ValueError"
  | '+' :: rest =>
    match digitsVal rest with
    | some n => Except.ok (n : Int)
    | none => Except.error "ValueError"
  | cs =>
    match digitsVal cs with
    | some n => Except.ok (n : Int)
    | none => Except.error "ValueError"

/-- read_cpu inside cpu_sample: read_proc("/proc/stat").splitlines()[0],
then list(map(int, line.split()[1:])).  Indexing [0] on the empty
splitlines of a missing or empty /proc/stat raises IndexError; a
non-numeric field raises ValueError. -/
def read_cpu (stat : String) : Except String (List Int) :=
  match pySplitlines stat with
  | [] => Except.error "IndexError"
  | line :: _ => ((pyWords line).drop 1).mapM pyInt

/-- parts = re.split(r"[:\s]+", line.strip()); the regex splits on runs,
so interior empty pieces never occur, modelled by dropping empties. -/
def devParts (line : String) : List String :=
  ((splitPred (fun c => c == ':' || c.isWhitespace) (pyStrip line).data).map
    String.mk).filter (fun w => !(w == ""))

/-- The scan of read_dev_counters over /proc/net/dev lines below the two
headers: the first line whose first field equals the interface has every
following field converted by int() (ValueError on a malformed field,
IndexError when fewer than 12 numeric columns follow); with no matching
line all counters are zero. -/
def devScan (lines : List String) (iface : String) : Except String (List Int) :=
  match lines with
  | [] => Except.ok [0, 0, 0, 0, 0, 0, 0, 0]
  | line :: rest =>
    match devParts line with
    | [] => devScan rest iface
    | p0 :: nums =>
      if p0 == iface then
        match nums.mapM pyInt with
        | Except.error e => Except.error e
        | Except.ok ns =>
          if ns.length < 12 then Except.error "IndexError"
          else Except.ok [ns.getD 0 0, ns.getD 1 0, ns.getD 2 0, ns.getD 3 0,
                          ns.getD 8 0, ns.getD 9 0, ns.getD 10 0, ns.getD 11 0]
      else devScan rest iface

def read_dev_counters (content : String) (iface : String) : Except String (List Int) :=
  devScan ((pySplitlines content).drop 2) iface

/-- Claim C8, evaluated on the code: a missing or empty /proc/stat makes
read_cpu raise IndexError out of the sampling step instead of degrading
the CPU metrics to zero (there is no try/except around cpu_sample in
run_loop); a malformed numeric field on the active interface's
/proc/net/dev line raises ValueError.  A missing /proc/net/dev does
degrade to all-zero counters as the claim states. -/
theorem C8_missing_proc_stat_raises :
    read_cpu "" = Except.error "IndexError" ∧
    read_dev_counters "" "eth0" = Except.ok [0, 0, 0, 0, 0, 0, 0, 0] ∧
    read_dev_counters "h1\nh2\neth0: 100 aa 0 0 0 0 0 0 5 5 0 0" "eth0"
      = Except.error "ValueError" ∧
    read_cpu "cpu 10 0 20 30 5 0 2 0" = Except.ok [10, 0, 20, 30, 5, 0, 2, 0] := by
  refine ⟨by rfl, by rfl, by rfl, by rfl⟩

/-! ## Key-management task creation
(src/central_server/web/handlers/keys.py, add_key lines 67-136 and
remove_key lines 139-199; ServerTask from db/models.py) -/

structure VpnSrv where
  server_id : String
  is_active : Bool
deriving DecidableEq, Repr

structure ServerTask where
  server_id : String
  type : String
  key_id : String
  email : Option String
  status : String
deriving DecidableEq, Repr

/-- The duplicate check of both handlers: a task for the same server,
key and kind whose status is pending or delivered. -/
def hasBlockingTask (tasks : List ServerTask) (sid key kind : String) : Bool :=
  tasks.any (fun t => t.server_id == sid && t.key_id == key && t.type == kind &&
    (t.status == "pending" || t.status == "delivered"))

/-- add_key handler: 404 when the server is unknown, 400 when it is
inactive, 400 when the key is not a UUID (uuidOk abstracts the library
call uuid.UUID(key_id)), 409 when a pending/delivered add_key task for
the same server and key exists, otherwise a new task in status pending.
The Nat is the HTTP status of the response, 200 for success. -/
def add_key (servers : List VpnSrv) (tasks : List ServerTask)
    (sid key : String) (uuidOk : Bool) (email : String) : Nat × List ServerTask :=
  match servers.find? (fun s => s.server_id == sid) with
  | none => (404, tasks)
  | some srv =>
    if !srv.is_active then (400, tasks)
    else if !uuidOk then (400, tasks)
    else if hasBlockingTask tasks sid key "add_key" then (409, tasks)
    else (200, tasks ++ [⟨sid, "add_key", key, some email, "pending"⟩])

/-- remove_key handler: as add_key but for kind del_key, without the
is_active check and without an email. -/
def remove_key (servers : List VpnSrv) (tasks : List ServerTask)
    (sid key : String) (uuidOk : Bool) : Nat × List ServerTask :=
  match servers.find? (fun s => s.server_id == sid) with
  | none => (404, tasks)
  | some _ =>
    if !uuidOk then (400, tasks)
    else if hasBlockingTask tasks sid key "del_key" then (409, tasks)
    else (200, tasks ++ [⟨sid, "del_key", key, none, "pending"⟩])

/-- Claim C9: for a well-formed creation request (known server, active
for add_key, valid UUID), the request is rejected with HTTP 409 exactly
when a task with identical server, key and kind exists in pending or
delivered status; otherwise a new task is created in status pending. -/
theorem C9_duplicate_task_rejected (servers : List VpnSrv)
    (tasks : List ServerTask) (sid key email : String) (srv : VpnSrv)
    (hfind : servers.find? (fun s => s.server_id == sid) = some srv)
    (hact : srv.is_active = true) :
    (hasBlockingTask tasks sid key "add_key" = true →
       add_key servers tasks sid key true email = (409, tasks)) ∧
    (hasBlockingTask tasks sid key "add_key" = false →
       add_key servers tasks sid key true email
         = (200, tasks ++ [⟨sid, "add_key", key, some email, "pending"⟩])) ∧
    (hasBlockingTask tasks sid key "del_key" = true →
       remove_key servers tasks sid key true = (409, tasks)) ∧
    (hasBlockingTask tasks sid key "del_key" = false →
       remove_key servers tasks sid key true
         = (200, tasks ++ [⟨sid, "del_key", key, none, "pending"⟩])) := by
  refine ⟨?_, ?_, ?_, ?_⟩ <;>
    intro hdup <;> simp [add_key, remove_key, hfind, hact, hdup]

def srvEx : VpnSrv := ⟨"s1", true⟩

def tasksEx : List ServerTask := [⟨"s1", "add_key", "K1", none, "pending"⟩]

theorem C9_duplicate_task_rejected_witness :
    add_key [srvEx] tasksEx "s1" "K1" true "user" = (409, tasksEx) ∧
    remove_key [srvEx] tasksEx "s1" "K1" true
      = (200, tasksEx ++ [⟨"s1", "del_key", "K1", none, "pending"⟩]) := by
  have h := C9_duplicate_task_rejected [srvEx] tasksEx "s1" "K1" "user" srvEx
    (by rfl) (by rfl)
  exact ⟨h.1 (by decide), h.2.2.2 (by decide)⟩

/-! ## Agent pull-and-ack path
(src/vpn_server/vpn_agent.py, run_loop lines 377-383 and ack_tasks
lines 225-230) -/

/-- A task dict as pulled from GET /tasks; get_tasks always sets task_id
to the integer row id, and the agent keeps exactly those ids for which
isinstance(t.get("task_id"), int) holds, modelled by Option Int. -/
structure PulledTask where
  type : String
  id : String
  email : Option String
  task_id : Option Int
deriving DecidableEq, Repr

def toTask (t : PulledTask) : Task := ⟨t.type, t.id, t.email⟩

/-- The task branch of one loop iteration: when the pulled batch is
non-empty, apply_tasks runs (returning early with nothing applied when
the config file cannot be read, modelled by cfg = none), and then every
integer task_id of the batch is acknowledged with the literal status
"done" — the ack list does not depend on the apply outcome. -/
def pull_step (cfg : Option (List Inbound)) (pulled : List PulledTask) :
    Option (List Inbound) × List (Int × String) :=
  if pulled.length = 0 then (cfg, [])
  else
    (match cfg with
     | none => none
     | some c => some ((apply_tasks (pulled.map toTask) c).1),
     (pulled.filterMap (fun t => t.task_id)).map (fun i => (i, "done")))

/-- Claim C10: after pulling a non-empty batch the agent acknowledges
every task id of the batch with status "done": the ack list is exactly
the batch's integer ids paired with "done", every ack carries "done"
(never "failed"), and the ack list is the same when the config file
could not be read (so nothing was applied). -/
theorem C10_acks_done_regardless (cfg : Option (List Inbound))
    (pulled : List PulledTask) (h : ¬pulled = []) :
    ((pull_step cfg pulled).2
        = (pulled.filterMap (fun t => t.task_id)).map (fun i => (i, "done"))) ∧
    (∀ t ∈ pulled, ∀ i : Int, t.task_id = some i →
       (i, "done") ∈ (pull_step cfg pulled).2) ∧
    (∀ a ∈ (pull_step cfg pulled).2, a.2 = "done") ∧
    ((pull_step none pulled).2 = (pull_step cfg pulled).2) := by
  have hl : ¬pulled.length = 0 := by simpa [List.length_eq_zero] using h
  have he : (pull_step cfg pulled).2
      = (pulled.filterMap (fun t => t.task_id)).map (fun i => (i, "done")) := by
    unfold pull_step
    rw [if_neg hl]
  refine ⟨he, ?_, ?_, ?_⟩
  · intro t ht i hi
    rw [he]
    exact List.mem_map.mpr ⟨i, List.mem_filterMap.mpr ⟨t, ht, hi⟩, rfl⟩
  · intro a ha
    rw [he] at ha
    rcases List.mem_map.mp ha with ⟨i, _, hia⟩
    rw [← hia]
  · rw [he]
    unfold pull_step
    rw [if_neg hl]

theorem C10_acks_done_regardless_witness :
    (7, "done") ∈ (pull_step none [⟨"add_key", "K", none, some 7⟩]).2 := by
  have h := C10_acks_done_regardless none [⟨"add_key", "K", none, some 7⟩]
    (by decide)
  exact h.2.1 ⟨"add_key", "K", none, some 7⟩ (by decide) 7 rfl

end VpnVerify
